import Mathlib

/-!
A verification development for the calendar-dashboard application `cal.py`.

Modelling conventions (shallow embedding of the Python source):

* A parsed date-time (`datetime.datetime.fromisoformat` applied to the
  `dateTime` field, after the `'Z' → '+00:00'` normalisation) is represented
  by its clock value in seconds on the timeline, as an `Int`.  Python's
  `.date()` on such a value is floor-division by 86400, and the time of day
  is the (always non-negative) remainder; Lean's `Int` `/` and `%` are
  Euclidean, which for the positive divisors used here coincide with floor
  division and a non-negative remainder, exactly as in Python.
* A calendar date (the `date` field of an all-day event, or the result of
  `.date()`) is represented by its day number, as an `Int`.  `pd.date_range`
  becomes the inclusive list of day numbers, and `strftime("%A")` becomes a
  lookup into the seven weekday names keyed by the day number modulo 7
  (day 0 maps to index 3, Thursday, matching the civil calendar).
* A Google event is a record of the optional fields the source reads:
  `start`/`end` each carry an optional `dateTime` and an optional `date`
  (the source reads `event['start'].get('dateTime', event['start'].get('date'))`
  and distinguishes the two cases by `'T' in start`); `summary`,
  `description`, `location`, `colorId` are optional strings with the
  defaults the source supplies via `.get`.
* Python float division `total_seconds() / 60` is exact on the integral
  second counts involved, so durations in minutes are modelled in `ℚ`.
* A Streamlit view is a function from its form inputs and from the outcome
  of its (single) remote call — an `Except` value — to a `ViewOutcome`:
  a rendered page, an inline `st.error` message, or an uncaught exception
  propagating out of the script.  The view consumes exactly one response
  value, mirroring the absence of any retry logic in the source.
-/

namespace Cal

/-- The `start`/`end` dictionary of a Google event: an optional parsed
date-time and an optional all-day date (source: `event['start'].get('dateTime')`,
`event['start'].get('date')`). -/
structure EventTime where
  dateTime : Option Int
  date : Option Int
  deriving DecidableEq

/-- A fetched Google event, restricted to the fields `cal.py` reads. -/
structure Event where
  start : EventTime
  «end» : EventTime
  summary : Option String
  description : Option String
  location : Option String
  colorId : Option String
  deriving DecidableEq

/-- `.date()` of a parsed timestamp: floor-division of the clock value by
86400 seconds (Euclidean `/` equals floor division for the positive divisor). -/
def tsDate (t : Int) : Int := t / 86400

/-- The seconds elapsed since local midnight of a parsed timestamp. -/
def tsSecOfDay (t : Int) : Nat := (t % 86400).toNat

/-- Zero-padded two-digit rendering, as in `strftime` fields `%H` and `%M`. -/
def pad2 (n : Nat) : String := if n < 10 then "0" ++ toString n else toString n

/-- `start_dt.strftime("%H:%M")` (cal.py line 236). -/
def fmtHM (t : Int) : String :=
  pad2 (tsSecOfDay t / 3600) ++ ":" ++ pad2 (tsSecOfDay t % 3600 / 60)

/-- The calendar date an event is grouped under (cal.py lines 230–238 and
93–97): the date of the parsed `dateTime` when present, otherwise the
all-day `date`.  The source would raise on an event with neither field;
well-formed API responses always carry one, and the fallback `0` is
unreachable for them. -/
def eventDate (e : Event) : Int :=
  match e.start.dateTime with
  | some t => tsDate t
  | none =>
    match e.start.date with
    | some d => d
    | none => 0

/-- `formatted_time` (cal.py lines 233–239): `"%H:%M"` for a timed start,
the literal label `"All day"` for a date-only start. -/
def formattedTime (e : Event) : String :=
  match e.start.dateTime with
  | some t => fmtHM t
  | none => "All day"

/-- The per-day display record appended to a date bucket
(cal.py lines 247–253). -/
structure DisplayRec where
  time : String
  summary : String
  description : String
  location : String
  color : String
  deriving DecidableEq

/-- Builds the display record of one event (cal.py lines 245–253). -/
def recOf (e : Event) : DisplayRec :=
  { time := formattedTime e,
    summary := e.summary.getD "Untitled Event",
    description := e.description.getD "",
    location := e.location.getD "",
    color := e.colorId.getD "0" }

/-- One step of the grouping dict: `events_by_date[event_date].append(...)`,
creating the key on first sight (cal.py lines 241–247).  Python dicts keep
first-insertion key order and `append` adds at the end. -/
def addToBucket : List (Int × List DisplayRec) → Int → DisplayRec → List (Int × List DisplayRec)
  | [], d, r => [(d, [r])]
  | (k, rs) :: rest, d, r =>
    if k = d then (k, rs ++ [r]) :: rest
    else (k, rs) :: addToBucket rest d r

/-- `events_by_date` (cal.py lines 228–253): the per-day grouping pass over
the fetched events, as an insertion-ordered association list. -/
def events_by_date (evs : List Event) : List (Int × List DisplayRec) :=
  evs.foldl (fun acc e => addToBucket acc (eventDate e) (recOf e)) []

/-- Dictionary lookup in the grouping (empty list when the date is absent). -/
def bucketGet : List (Int × List DisplayRec) → Int → List DisplayRec
  | [], _ => []
  | (k, rs) :: rest, d => if k = d then rs else bucketGet rest d

/-- The chronological key of an event's start marker: the clock value of a
timed start, local midnight of an all-day date.  This is the order the
`orderBy='startTime'` list call returns events in. -/
def startKey (e : Event) : Int :=
  match e.start.dateTime with
  | some t => t
  | none =>
    match e.start.date with
    | some d => d * 86400
    | none => 0

/-- "Starts no later than": the comparison underlying the chronological
order of the fetched list. -/
def startLE (a b : Event) : Prop := startKey a ≤ startKey b

instance : DecidableRel startLE :=
  fun a b => inferInstanceAs (Decidable (startKey a ≤ startKey b))

/-- The seven weekday labels, in the order the analytics view uses
(cal.py line 462). -/
def dayNames : List String :=
  ["Monday", "Tuesday", "Wednesday", "Thursday", "Friday", "Saturday", "Sunday"]

/-- Index of a day number's weekday among `dayNames`: day 0 of the timeline
is a Thursday, hence the offset 3. -/
def weekdayIdx (d : Int) : Nat := ((d + 3) % 7).toNat

/-- `event_dt.strftime("%A")` (cal.py line 472), as a function of the
event's calendar day number. -/
def dayName (d : Int) : String := dayNames.getD (weekdayIdx d) "Monday"

/-- `day_counts` (cal.py lines 462–473): the dict of seven weekday labels,
initialised to 0, incremented at each event's weekday name. -/
def day_counts (evs : List Event) : String → Nat :=
  evs.foldl
    (fun f e =>
      Function.update f (dayName (eventDate e)) (f (dayName (eventDate e)) + 1))
    (fun _ => 0)

/-- `duration_minutes = (end_dt - start_dt).total_seconds() / 60`
(cal.py line 507), exact in `ℚ`. -/
def duration_minutes (s t : Int) : ℚ := ((t - s : Int) : ℚ) / 60

/-- One entry of the `timed_events` list (cal.py lines 509–512). -/
structure TimedEvent where
  summary : String
  duration_minutes : ℚ
  deriving DecidableEq

/-- `timed_events` (cal.py lines 498–512): the events having both a start
`dateTime` and an end `dateTime`, each carried with its duration in minutes. -/
def timed_events (evs : List Event) : List TimedEvent :=
  evs.filterMap fun e =>
    match e.start.dateTime, e.«end».dateTime with
    | some s, some t =>
      some { summary := e.summary.getD "Untitled",
             duration_minutes := duration_minutes s t }
    | _, _ => none

/-- `categorize_duration` (cal.py lines 519–529). -/
def categorize_duration (minutes : ℚ) : String :=
  if minutes ≤ 15 then "0-15 minutes"
  else if minutes ≤ 30 then "16-30 minutes"
  else if minutes ≤ 60 then "31-60 minutes"
  else if minutes ≤ 120 then "1-2 hours"
  else "2+ hours"

/-- `category_order` (cal.py line 538): the five duration-bucket labels. -/
def category_order : List String :=
  ["0-15 minutes", "16-30 minutes", "31-60 minutes", "1-2 hours", "2+ hours"]

/-- `category_counts` (cal.py lines 531–544) as a counting function: the
number of timed events whose category is the given label (`value_counts`
holds no row — count 0 — for an absent label). -/
def category_counts (evs : List Event) (lbl : String) : Nat :=
  ((timed_events evs).filter
    (fun t => categorize_duration t.duration_minutes = lbl)).length

/-- `avg_duration` (cal.py lines 514, 559–562): the mean duration, computed
only when `timed_events` is non-empty. -/
def avg_duration (evs : List Event) : Option ℚ :=
  if timed_events evs = [] then none
  else
    some (((timed_events evs).map TimedEvent.duration_minutes).sum /
      ((timed_events evs).length : ℚ))

/-- `pd.date_range(start, end)` (cal.py line 83): the inclusive list of day
numbers from `s` to `e` (empty when `e < s`). -/
def dateRange (s e : Int) : List Int :=
  (List.range (e - s + 1).toNat).map fun (i : Nat) => s + (i : Int)

/-- The initial heatmap frame (cal.py lines 86–89): every day of the range
with count 0. -/
def initCal (s e : Int) : List (Int × Nat) :=
  (dateRange s e).map fun d => (d, 0)

/-- One heatmap increment (cal.py lines 100–102): every row whose date
matches is incremented; an event date absent from the frame changes
nothing. -/
def bumpDay (cal : List (Int × Nat)) (d : Int) : List (Int × Nat) :=
  cal.map fun p => if p.1 = d then (p.1, p.2 + 1) else p

/-- `create_calendar_heatmap` (cal.py lines 78–102), up to the per-day
counts the chart renders. -/
def create_calendar_heatmap (evs : List Event) (s e : Int) : List (Int × Nat) :=
  evs.foldl (fun cal ev => bumpDay cal (eventDate ev)) (initCal s e)

/-- Total of the heatmap's per-day counts. -/
def sumCounts (cal : List (Int × Nat)) : Nat := (cal.map Prod.snd).sum

/-- What a view turns into on screen: a rendered page, an inline `st.error`
message, or an exception escaping the script uncaught. -/
inductive ViewOutcome (α : Type) where
  | shown : α → ViewOutcome α
  | errorMessage : String → ViewOutcome α
  | uncaught : String → ViewOutcome α
  deriving DecidableEq

/-- The upcoming-events view (cal.py lines 193–268): the chosen dates
parameterise the request but undergo no local validation, the
`events().list` call stands under no `try`/`except`, and a successful
response is grouped by date and rendered. -/
def upcomingView (s e : Int) (remote : Except String (List Event)) :
    ViewOutcome (List (Int × List DisplayRec)) :=
  match remote with
  | .error msg => .uncaught msg
  | .ok evs => .shown (events_by_date evs)

/-- The fetch stage of the analytics view (cal.py lines 428–443, 566): the
`events().list` call is made only when `start ≤ end`, otherwise an inline
error is shown; the call itself stands under no `try`/`except`. -/
def analyticsFetch (s e : Int) (remote : Except String (List Event)) :
    ViewOutcome (List Event) :=
  if s ≤ e then
    match remote with
    | .error msg => .uncaught msg
    | .ok evs => .shown evs
  else .errorMessage "End date must be after start date"

/-- The create-event submission (cal.py lines 337–412): an empty title is
reported inline before any remote work; the `events().insert` call is
wrapped in `try`/`except` and its failure surfaces as an inline error. -/
def createView (title : String) (remote : Except String String) :
    ViewOutcome String :=
  if title = "" then .errorMessage "Please enter an event title"
  else
    match remote with
    | .error msg => .errorMessage ("Failed to create event: " ++ msg)
    | .ok link => .shown link

/-- A timed event on day 0 with the given start and end clock seconds. -/
def mkTimed (startT endT : Int) : Event :=
  { start := { dateTime := some startT, date := none },
    «end» := { dateTime := some endT, date := none },
    summary := none, description := none, location := none, colorId := none }

/-- 09:00–09:30 on day 0. -/
def ev930 : Event := mkTimed 32400 34200

/-- 10:00–11:00 on day 0. -/
def ev1011 : Event := mkTimed 36000 39600

/-- The spec's worked example: two timed events on the same day,
09:00–09:30 and 10:00–11:00. -/
def c2Events : List Event := [ev930, ev1011]

/-- An all-day event (date-only start and end) on day 0. -/
def allDayEv : Event :=
  { start := { dateTime := none, date := some 0 },
    «end» := { dateTime := none, date := some 1 },
    summary := some "Holiday", description := none, location := none,
    colorId := none }

/-- A timed event far outside the small analytic ranges used below
(day 100). -/
def evFar : Event := mkTimed (100 * 86400) (100 * 86400 + 3600)

/-! ### The per-day grouping pass -/

lemma bucketGet_addToBucket_self (acc : List (Int × List DisplayRec)) (d : Int)
    (r : DisplayRec) :
    bucketGet (addToBucket acc d r) d = bucketGet acc d ++ [r] := by
  induction acc with
  | nil => simp [addToBucket, bucketGet]
  | cons p rest ih =>
    obtain ⟨k, rs⟩ := p
    by_cases h : k = d
    · simp [addToBucket, bucketGet, h]
    · simp [addToBucket, bucketGet, h, ih]

lemma bucketGet_addToBucket_ne (acc : List (Int × List DisplayRec)) (d d' : Int)
    (r : DisplayRec) (hne : d' ≠ d) :
    bucketGet (addToBucket acc d r) d' = bucketGet acc d' := by
  induction acc with
  | nil =>
    simp only [addToBucket, bucketGet]
    rw [if_neg fun hc => hne hc.symm]
  | cons p rest ih =>
    obtain ⟨k, rs⟩ := p
    simp only [addToBucket]
    by_cases h : k = d
    · rw [if_pos h]
      simp only [bucketGet]
      subst h
      rw [if_neg fun hc => hne hc.symm, if_neg fun hc => hne hc.symm]
    · rw [if_neg h]
      simp only [bucketGet]
      by_cases h2 : k = d'
      · rw [if_pos h2, if_pos h2]
      · rw [if_neg h2, if_neg h2, ih]

lemma bucketGet_foldl (evs : List Event) (d : Int) :
    ∀ acc : List (Int × List DisplayRec),
      bucketGet (evs.foldl (fun a e => addToBucket a (eventDate e) (recOf e)) acc) d
        = bucketGet acc d ++ (evs.filter (fun e => eventDate e = d)).map recOf := by
  induction evs with
  | nil => intro acc; simp
  | cons e evs ih =>
    intro acc
    rw [List.foldl_cons, ih]
    by_cases h : eventDate e = d
    · subst h
      rw [bucketGet_addToBucket_self]
      simp [List.filter_cons]
    · rw [bucketGet_addToBucket_ne _ _ _ _ fun hc => h hc.symm]
      simp [List.filter_cons, h]

lemma bucketGet_events_by_date (evs : List Event) (d : Int) :
    bucketGet (events_by_date evs) d
      = (evs.filter (fun e => eventDate e = d)).map recOf := by
  have h := bucketGet_foldl evs d []
  simpa [events_by_date, bucketGet] using h

lemma keys_addToBucket (acc : List (Int × List DisplayRec)) (d : Int)
    (r : DisplayRec) :
    (addToBucket acc d r).map Prod.fst
      = if d ∈ acc.map Prod.fst then acc.map Prod.fst
        else acc.map Prod.fst ++ [d] := by
  induction acc with
  | nil => simp [addToBucket]
  | cons p rest ih =>
    obtain ⟨k, rs⟩ := p
    by_cases h : k = d
    · subst h
      simp [addToBucket, List.mem_cons]
    · simp only [addToBucket, if_neg h, List.map_cons, ih]
      by_cases hm : d ∈ rest.map Prod.fst
      · rw [if_pos hm, if_pos (List.mem_cons_of_mem _ hm)]
      · rw [if_neg hm,
          if_neg fun hc => (List.mem_cons.mp hc).elim (fun hd => h hd.symm) hm]
        simp

lemma nodup_keys_events_by_date (evs : List Event) :
    ((events_by_date evs).map Prod.fst).Nodup := by
  suffices h : ∀ acc : List (Int × List DisplayRec), (acc.map Prod.fst).Nodup →
      ((evs.foldl (fun a e => addToBucket a (eventDate e) (recOf e)) acc).map
        Prod.fst).Nodup by
    simpa [events_by_date] using h [] (by simp)
  induction evs with
  | nil => intro acc h; simpa using h
  | cons e evs ih =>
    intro acc h
    rw [List.foldl_cons]
    apply ih
    rw [keys_addToBucket]
    split_ifs with hm
    · exact h
    · simp [List.nodup_append, h, hm]

lemma bucketGet_eq_of_mem :
    ∀ (l : List (Int × List DisplayRec)) (d : Int) (rs : List DisplayRec),
      (l.map Prod.fst).Nodup → (d, rs) ∈ l → bucketGet l d = rs := by
  intro l
  induction l with
  | nil => intro d rs _ hm; cases hm
  | cons p rest ih =>
    intro d rs hnd hm
    obtain ⟨k, rs0⟩ := p
    rcases List.mem_cons.mp hm with h | h
    · obtain ⟨rfl, rfl⟩ := Prod.mk.injEq .. ▸ h
      simp [bucketGet]
    · by_cases hk : k = d
      · exfalso
        subst hk
        have hmem : k ∈ rest.map Prod.fst := by
          simpa using List.mem_map_of_mem Prod.fst h
        have hn : k ∉ rest.map Prod.fst := by
          have := hnd
          simp only [List.map_cons] at this
          exact (List.nodup_cons.mp this).1
        exact hn hmem
      · have hrest : (rest.map Prod.fst).Nodup := by
          have := hnd
          simp only [List.map_cons] at this
          exact (List.nodup_cons.mp this).2
        simp [bucketGet, hk, ih d rs hrest h]

/-- Claim C6: for every event with a date-time start, the grouping key is the date
component of the parsed timestamp, and every bucket of the per-day mapping
holds exactly the display records of the events whose calendar date is the
bucket's date. -/
theorem bucket_date_invariant (evs : List Event) (d : Int)
    (recs : List DisplayRec) (h : (d, recs) ∈ events_by_date evs) :
    recs = (evs.filter (fun e => eventDate e = d)).map recOf ∧
    ∀ e ∈ evs, ∀ t : Int, e.start.dateTime = some t → eventDate e = tsDate t := by
  refine ⟨?_, ?_⟩
  · rw [← bucketGet_eq_of_mem (events_by_date evs) d recs
      (nodup_keys_events_by_date evs) h, bucketGet_events_by_date]
  · intro e _ t ht
    simp [eventDate, ht]

/-- Witness for C6 at a concrete one-event input. -/
theorem bucket_date_invariant_witness :
    [recOf ev930] = (([ev930].filter (fun e => eventDate e = 0)).map recOf) ∧
    ∀ e ∈ [ev930], ∀ t : Int, e.start.dateTime = some t → eventDate e = tsDate t :=
  bucket_date_invariant [ev930] 0 [recOf ev930] (by decide)

/-- Claim C7: when the fetched list is in chronological order of start time, the
per-day grouping preserves that order, so each date bucket lists its
events sorted by start time. -/
theorem bucket_sorted_invariant (evs : List Event)
    (hs : List.Pairwise startLE evs) (d : Int) (recs : List DisplayRec)
    (h : (d, recs) ∈ events_by_date evs) :
    recs = (evs.filter (fun e => eventDate e = d)).map recOf ∧
    List.Pairwise startLE (evs.filter (fun e => eventDate e = d)) := by
  refine ⟨?_, ?_⟩
  · rw [← bucketGet_eq_of_mem (events_by_date evs) d recs
      (nodup_keys_events_by_date evs) h, bucketGet_events_by_date]
  · exact hs.sublist (List.filter_sublist evs)

/-- Witness for C7 at a concrete sorted two-event input. -/
theorem bucket_sorted_invariant_witness :
    [recOf ev930, recOf ev1011]
        = ((c2Events.filter (fun e => eventDate e = 0)).map recOf) ∧
    List.Pairwise startLE (c2Events.filter (fun e => eventDate e = 0)) :=
  bucket_sorted_invariant c2Events (by decide) 0 [recOf ev930, recOf ev1011]
    (by decide)

/-! ### Weekday bucketing -/

lemma dayName_mem (d : Int) : dayName d ∈ dayNames := by
  have h7 : weekdayIdx d < 7 := by
    unfold weekdayIdx
    have h1 : 0 ≤ (d + 3) % 7 := Int.emod_nonneg _ (by norm_num)
    have h2 : (d + 3) % 7 < 7 := Int.emod_lt_of_pos _ (by norm_num)
    omega
  unfold dayName
  interval_cases h : weekdayIdx d <;> decide

lemma map_update_of_not_mem (f : String → Nat) (x : String) (v : Nat)
    (ls : List String) (hx : x ∉ ls) :
    ls.map (Function.update f x v) = ls.map f := by
  induction ls with
  | nil => rfl
  | cons a ls ih =>
    have hax : a ≠ x := fun hc => hx (hc ▸ List.mem_cons_self a ls)
    have hxl : x ∉ ls := fun hc => hx (List.mem_cons_of_mem a hc)
    simp [Function.update_noteq hax, ih hxl]

lemma sum_map_update_add_one (ls : List String) (hnd : ls.Nodup) (x : String)
    (hx : x ∈ ls) (f : String → Nat) :
    (ls.map (Function.update f x (f x + 1))).sum = (ls.map f).sum + 1 := by
  induction ls with
  | nil => cases hx
  | cons a ls ih =>
    rcases List.mem_cons.mp hx with h | h
    · subst h
      have hnot : x ∉ ls := (List.nodup_cons.mp hnd).1
      simp [Function.update_same, map_update_of_not_mem f x (f x + 1) ls hnot]
      omega
    · have hax : a ≠ x := by
        rintro rfl
        exact (List.nodup_cons.mp hnd).1 h
      simp [Function.update_noteq hax, ih (List.nodup_cons.mp hnd).2 h]
      omega

lemma day_counts_fold_sum (evs : List Event) :
    ∀ f : String → Nat,
      (dayNames.map
        (evs.foldl
          (fun g e =>
            Function.update g (dayName (eventDate e))
              (g (dayName (eventDate e)) + 1))
          f)).sum
        = (dayNames.map f).sum + evs.length := by
  induction evs with
  | nil => intro f; simp
  | cons e evs ih =>
    intro f
    rw [List.foldl_cons, ih,
      sum_map_update_add_one dayNames (by decide) _ (dayName_mem (eventDate e)) f]
    simp [List.length_cons]
    omega

/-- Claim C3: every event is assigned to exactly one of the seven fixed weekday
labels, and the seven weekday-bucket counts sum to the total number of
fetched events. -/
theorem weekday_counts_total (evs : List Event) :
    (∀ e ∈ evs, dayName (eventDate e) ∈ dayNames) ∧
    (dayNames.map (day_counts evs)).sum = evs.length := by
  refine ⟨fun e _ => dayName_mem (eventDate e), ?_⟩
  have h := day_counts_fold_sum evs (fun _ => 0)
  simpa [day_counts] using h

/-- Witness for C3 at a concrete one-event input. -/
theorem weekday_counts_total_witness :
    dayName (eventDate ev930) ∈ dayNames ∧
    (dayNames.map (day_counts [ev930])).sum = [ev930].length :=
  ⟨(weekday_counts_total [ev930]).1 ev930 (by decide),
   (weekday_counts_total [ev930]).2⟩

/-! ### Duration bucketing -/

lemma timed_events_eq_filter (evs : List Event) :
    timed_events evs
      = (evs.filter
          (fun e => e.start.dateTime.isSome && e.«end».dateTime.isSome)).map
          (fun e =>
            { summary := e.summary.getD "Untitled",
              duration_minutes :=
                duration_minutes (e.start.dateTime.getD 0)
                  (e.«end».dateTime.getD 0) }) := by
  induction evs with
  | nil => rfl
  | cons e evs ih =>
    cases hs : e.start.dateTime <;> cases he : e.«end».dateTime <;>
      simp [timed_events, List.filterMap_cons, List.filter_cons, hs, he] <;>
      simpa [timed_events] using ih

lemma categorize_0_15 (m : ℚ) :
    categorize_duration m = "0-15 minutes" ↔ m ≤ 15 := by
  unfold categorize_duration
  split_ifs with h1 h2 h3 h4
  · exact iff_of_true rfl h1
  · exact iff_of_false (by decide) h1
  · exact iff_of_false (by decide) h1
  · exact iff_of_false (by decide) h1
  · exact iff_of_false (by decide) h1

lemma categorize_16_30 (m : ℚ) :
    categorize_duration m = "16-30 minutes" ↔ 15 < m ∧ m ≤ 30 := by
  unfold categorize_duration
  split_ifs with h1 h2 h3 h4
  · exact iff_of_false (by decide) (by rintro ⟨ha, hb⟩; linarith)
  · exact iff_of_true rfl ⟨by linarith, h2⟩
  · exact iff_of_false (by decide) (by rintro ⟨ha, hb⟩; linarith)
  · exact iff_of_false (by decide) (by rintro ⟨ha, hb⟩; linarith)
  · exact iff_of_false (by decide) (by rintro ⟨ha, hb⟩; linarith)

lemma categorize_31_60 (m : ℚ) :
    categorize_duration m = "31-60 minutes" ↔ 30 < m ∧ m ≤ 60 := by
  unfold categorize_duration
  split_ifs with h1 h2 h3 h4
  · exact iff_of_false (by decide) (by rintro ⟨ha, hb⟩; linarith)
  · exact iff_of_false (by decide) (by rintro ⟨ha, hb⟩; linarith)
  · exact iff_of_true rfl ⟨by linarith, h3⟩
  · exact iff_of_false (by decide) (by rintro ⟨ha, hb⟩; linarith)
  · exact iff_of_false (by decide) (by rintro ⟨ha, hb⟩; linarith)

lemma categorize_1_2h (m : ℚ) :
    categorize_duration m = "1-2 hours" ↔ 60 < m ∧ m ≤ 120 := by
  unfold categorize_duration
  split_ifs with h1 h2 h3 h4
  · exact iff_of_false (by decide) (by rintro ⟨ha, hb⟩; linarith)
  · exact iff_of_false (by decide) (by rintro ⟨ha, hb⟩; linarith)
  · exact iff_of_false (by decide) (by rintro ⟨ha, hb⟩; linarith)
  · exact iff_of_true rfl ⟨by linarith, h4⟩
  · exact iff_of_false (by decide) (by rintro ⟨ha, hb⟩; linarith)

lemma categorize_2plus (m : ℚ) :
    categorize_duration m = "2+ hours" ↔ 120 < m := by
  unfold categorize_duration
  split_ifs with h1 h2 h3 h4
  · exact iff_of_false (by decide) (by intro ha; linarith)
  · exact iff_of_false (by decide) (by intro ha; linarith)
  · exact iff_of_false (by decide) (by intro ha; linarith)
  · exact iff_of_false (by decide) (not_lt.mpr h4)
  · exact iff_of_true rfl (by linarith)

lemma categorize_duration_ranges (m : ℚ) :
    (categorize_duration m = "0-15 minutes" ↔ m ≤ 15) ∧
    (categorize_duration m = "16-30 minutes" ↔ 15 < m ∧ m ≤ 30) ∧
    (categorize_duration m = "31-60 minutes" ↔ 30 < m ∧ m ≤ 60) ∧
    (categorize_duration m = "1-2 hours" ↔ 60 < m ∧ m ≤ 120) ∧
    (categorize_duration m = "2+ hours" ↔ 120 < m) :=
  ⟨categorize_0_15 m, categorize_16_30 m, categorize_31_60 m,
   categorize_1_2h m, categorize_2plus m⟩

/-- Claim C1: exactly the events with both a start and an end date-time take part
in the duration analysis, each with duration end minus start in minutes,
and the five duration categories are the non-overlapping ranges
at most 15, (15,30], (30,60], (60,120] and more than 120 minutes. -/
theorem duration_bucketing_spec (evs : List Event) :
    timed_events evs
      = (evs.filter
          (fun e => e.start.dateTime.isSome && e.«end».dateTime.isSome)).map
          (fun e =>
            { summary := e.summary.getD "Untitled",
              duration_minutes :=
                duration_minutes (e.start.dateTime.getD 0)
                  (e.«end».dateTime.getD 0) }) ∧
    ∀ m : ℚ,
      (categorize_duration m = "0-15 minutes" ↔ m ≤ 15) ∧
      (categorize_duration m = "16-30 minutes" ↔ 15 < m ∧ m ≤ 30) ∧
      (categorize_duration m = "31-60 minutes" ↔ 30 < m ∧ m ≤ 60) ∧
      (categorize_duration m = "1-2 hours" ↔ 60 < m ∧ m ≤ 120) ∧
      (categorize_duration m = "2+ hours" ↔ 120 < m) :=
  ⟨timed_events_eq_filter evs, categorize_duration_ranges⟩

/-- Witness for C1: an all-day event takes no part in the duration
analysis, and a 90-minute duration lands in the (60,120] bucket. -/
theorem duration_bucketing_spec_witness :
    timed_events [allDayEv] = [] ∧ categorize_duration 90 = "1-2 hours" :=
  ⟨((duration_bucketing_spec [allDayEv]).1).trans (by decide),
   (((duration_bucketing_spec []).2 90).2.2.2.1).mpr (by norm_num)⟩

/-! ### The worked example of the spec -/

lemma timed_events_c2 :
    timed_events c2Events
      = [{ summary := "Untitled", duration_minutes := 30 },
         { summary := "Untitled", duration_minutes := 60 }] := by
  simp only [timed_events, c2Events, ev930, ev1011, mkTimed,
    duration_minutes, List.filterMap_cons, List.filterMap_nil]
  norm_num

/-- Claim C2 fails on the code: for the events 09:00–09:30 and 10:00–11:00 the
60-minute event falls in the "31-60 minutes" bucket (the source's
`minutes <= 60` branch), not in "1-2 hours", so the claimed counts
"31-60 minutes": 0 and "1-2 hours": 1 are both wrong. -/
theorem duration_example_counterexample :
    ¬ (category_counts c2Events "31-60 minutes" = 0 ∧
       category_counts c2Events "1-2 hours" = 1) := by
  simp only [category_counts, timed_events_c2]
  decide

/-- Claim C2 amended: for the two events 09:00–09:30 and 10:00–11:00 the duration
buckets are "16-30 minutes": 1, "31-60 minutes": 1, "1-2 hours": 0, and the
average duration is 45 minutes. -/
theorem duration_example_amended :
    category_counts c2Events "16-30 minutes" = 1 ∧
    category_counts c2Events "31-60 minutes" = 1 ∧
    category_counts c2Events "1-2 hours" = 0 ∧
    avg_duration c2Events = some 45 := by
  refine ⟨?_, ?_, ?_, ?_⟩
  · simp only [category_counts, timed_events_c2]
    decide
  · simp only [category_counts, timed_events_c2]
    decide
  · simp only [category_counts, timed_events_c2]
    decide
  · unfold avg_duration
    rw [timed_events_c2, if_neg (List.cons_ne_nil _ _)]
    norm_num

/-! ### Duration-bucket counts sum to the number of timed events -/

lemma sum_map_add_nat {α : Type} (l : List α) (f g : α → Nat) :
    (l.map fun x => f x + g x).sum = (l.map f).sum + (l.map g).sum := by
  induction l with
  | nil => rfl
  | cons a l ih =>
    simp [ih]
    omega

lemma sum_indicator_zero (y : String) (ls : List String) (hy : y ∉ ls) :
    (ls.map fun lbl => if y = lbl then 1 else 0).sum = 0 := by
  induction ls with
  | nil => rfl
  | cons a ls ih =>
    have hya : ¬ y = a := fun hc => hy (hc ▸ List.mem_cons_self a ls)
    have hyl : y ∉ ls := fun hc => hy (List.mem_cons_of_mem a hc)
    simp [hya, ih hyl]

lemma sum_indicator_one (y : String) (ls : List String) (hnd : ls.Nodup)
    (hy : y ∈ ls) :
    (ls.map fun lbl => if y = lbl then 1 else 0).sum = 1 := by
  induction ls with
  | nil => cases hy
  | cons a ls ih =>
    rcases List.mem_cons.mp hy with h | h
    · subst h
      simp [sum_indicator_zero y ls (List.nodup_cons.mp hnd).1]
    · have hya : ¬ y = a := fun hc => (List.nodup_cons.mp hnd).1 (hc ▸ h)
      simp [hya, ih (List.nodup_cons.mp hnd).2 h]

lemma sum_filter_counts (ls : List String) (hnd : ls.Nodup)
    (g : TimedEvent → String) :
    ∀ xs : List TimedEvent, (∀ a ∈ xs, g a ∈ ls) →
      (ls.map fun lbl => (xs.filter fun a => g a = lbl).length).sum
        = xs.length := by
  intro xs
  induction xs with
  | nil => intro _; simp
  | cons x xs ih =>
    intro hg
    have key : ∀ lbl : String,
        ((x :: xs).filter fun a => g a = lbl).length
          = (if g x = lbl then 1 else 0)
            + (xs.filter fun a => g a = lbl).length := by
      intro lbl
      by_cases h : g x = lbl <;> simp [List.filter_cons, h] <;> omega
    simp only [key]
    rw [sum_map_add_nat, sum_indicator_one (g x) ls hnd (hg x (List.mem_cons_self x xs)),
      ih fun a ha => hg a (List.mem_cons_of_mem x ha)]
    simp [Nat.add_comm]

lemma categorize_mem (m : ℚ) : categorize_duration m ∈ category_order := by
  unfold categorize_duration category_order
  split_ifs <;> simp

/-- Claim C4: the duration-bucket counts sum to the number of timed events; they
do not in general sum to the total number of fetched events (all-day
events contribute to no bucket). -/
theorem duration_counts_total (evs : List Event) :
    (category_order.map (category_counts evs)).sum = (timed_events evs).length ∧
    ∃ evs2 : List Event,
      (category_order.map (category_counts evs2)).sum ≠ evs2.length := by
  constructor
  · have hcc : category_counts evs
        = fun lbl =>
          ((timed_events evs).filter
            (fun t => categorize_duration t.duration_minutes = lbl)).length := rfl
    rw [hcc]
    exact sum_filter_counts category_order (by decide)
      (fun t => categorize_duration t.duration_minutes) (timed_events evs)
      (fun a _ => categorize_mem a.duration_minutes)
  · exact ⟨[allDayEv], by decide⟩

/-- Witness for C4 at the concrete two-event input of the worked example. -/
theorem duration_counts_total_witness :
    (category_order.map (category_counts c2Events)).sum
      = (timed_events c2Events).length :=
  (duration_counts_total c2Events).1

/-! ### Average duration -/

/-- Claim C5: the average duration is computed exactly when the timed-event
subset is non-empty, and then equals the sum of the timed durations
divided by their count. -/
theorem avg_duration_spec (evs : List Event) :
    ((avg_duration evs).isSome ↔ timed_events evs ≠ []) ∧
    (timed_events evs ≠ [] →
      avg_duration evs
        = some (((timed_events evs).map TimedEvent.duration_minutes).sum /
            ((timed_events evs).length : ℚ))) := by
  unfold avg_duration
  by_cases h : timed_events evs = [] <;> simp [h]

/-- Witness for C5 at the concrete two-event input of the worked example. -/
theorem avg_duration_spec_witness :
    avg_duration c2Events
      = some (((timed_events c2Events).map TimedEvent.duration_minutes).sum /
          ((timed_events c2Events).length : ℚ)) :=
  (avg_duration_spec c2Events).2 (by decide)

/-! ### Remote-call failure handling and local input validation -/

/-- Claim C8 fails on the code: the upcoming view's `events().list` call stands
under no `try`/`except` (cal.py lines 212–222), so its failure propagates
uncaught instead of surfacing as a user-facing error message. -/
theorem list_failure_uncaught :
    upcomingView 0 14 (Except.error "boom") = ViewOutcome.uncaught "boom" := rfl

/-- Claim C8 amended: only the `events().insert` call's failure is caught at the
call site and surfaced as a user-facing error message; the two
`events().list` calls' failures propagate uncaught; no call is retried
(each view consumes exactly one response). -/
theorem remote_failure_handling_amended (title : String) (ht : title ≠ "")
    (s e : Int) (hse : s ≤ e) (msg : String) :
    createView title (Except.error msg)
        = ViewOutcome.errorMessage ("Failed to create event: " ++ msg) ∧
    upcomingView s e (Except.error msg) = ViewOutcome.uncaught msg ∧
    analyticsFetch s e (Except.error msg) = ViewOutcome.uncaught msg := by
  refine ⟨?_, rfl, ?_⟩
  · simp [createView, ht]
  · simp [analyticsFetch, hse]

/-- Witness for the amended C8 at concrete inputs. -/
theorem remote_failure_handling_amended_witness :
    createView "Meeting" (Except.error "boom")
        = ViewOutcome.errorMessage ("Failed to create event: " ++ "boom") ∧
    upcomingView 0 7 (Except.error "boom") = ViewOutcome.uncaught "boom" ∧
    analyticsFetch 0 7 (Except.error "boom") = ViewOutcome.uncaught "boom" :=
  remote_failure_handling_amended "Meeting" (by decide) 0 7 (by decide) "boom"

/-- Claim C9 fails on the code: the upcoming view checks nothing about its date
range — here the end day 0 lies strictly before the start day 5, yet the
view consumes the remote response and renders it instead of reporting the
invalid input before the call. -/
theorem upcoming_no_validation :
    upcomingView 5 0 (Except.ok [ev930])
      = ViewOutcome.shown (events_by_date [ev930]) := rfl

/-- Claim C9 amended: the create view reports an empty title inline without
consulting the remote call, and the analytics view reports an end date
strictly before the start date inline without consulting the remote call;
the upcoming view, however, issues its list call without validating the
date range. -/
theorem input_validation_amended (s e : Int) (h : e < s)
    (remote : Except String (List Event)) (remote2 : Except String String)
    (evs : List Event) :
    createView "" remote2 = ViewOutcome.errorMessage "Please enter an event title" ∧
    analyticsFetch s e remote
        = ViewOutcome.errorMessage "End date must be after start date" ∧
    upcomingView s e (Except.ok evs) = ViewOutcome.shown (events_by_date evs) := by
  refine ⟨?_, ?_, rfl⟩
  · simp [createView]
  · simp [analyticsFetch, not_le.mpr h]

/-- Witness for the amended C9 at concrete inputs. -/
theorem input_validation_amended_witness :
    createView "" (Except.error "x")
        = ViewOutcome.errorMessage "Please enter an event title" ∧
    analyticsFetch 5 0 (Except.ok [])
        = ViewOutcome.errorMessage "End date must be after start date" ∧
    upcomingView 5 0 (Except.ok [ev1011])
        = ViewOutcome.shown (events_by_date [ev1011]) :=
  input_validation_amended 5 0 (by decide) (Except.ok []) (Except.error "x")
    [ev1011]

/-! ### The heatmap aggregation -/

lemma mem_dateRange (s e d : Int) : d ∈ dateRange s e ↔ s ≤ d ∧ d ≤ e := by
  unfold dateRange
  simp only [List.mem_map, List.mem_range]
  constructor
  · rintro ⟨i, hi, rfl⟩
    omega
  · rintro ⟨h1, h2⟩
    exact ⟨(d - s).toNat, by omega, by omega⟩

lemma nodup_dateRange (s e : Int) : (dateRange s e).Nodup := by
  unfold dateRange
  refine List.Nodup.map ?_ (List.nodup_range _)
  intro a b hab
  have h2 : s + (a : Int) = s + (b : Int) := hab
  omega

lemma sumCounts_cons (x : Int × Nat) (l : List (Int × Nat)) :
    sumCounts (x :: l) = x.2 + sumCounts l := by
  simp [sumCounts]

lemma bumpDay_cons (p : Int × Nat) (cal : List (Int × Nat)) (d : Int) :
    bumpDay (p :: cal) d
      = (if p.1 = d then (p.1, p.2 + 1) else p) :: bumpDay cal d := rfl

lemma keys_bumpDay (cal : List (Int × Nat)) (d : Int) :
    (bumpDay cal d).map Prod.fst = cal.map Prod.fst := by
  unfold bumpDay
  rw [List.map_map]
  refine List.map_congr_left ?_
  intro p _
  by_cases h : p.1 = d <;> simp [h]

lemma sumCounts_bumpDay (cal : List (Int × Nat)) (d : Int) :
    sumCounts (bumpDay cal d)
      = sumCounts cal + (cal.filter fun p => p.1 = d).length := by
  induction cal with
  | nil => rfl
  | cons p cal ih =>
    rw [bumpDay_cons, sumCounts_cons, ih, sumCounts_cons, List.filter_cons]
    by_cases h : p.1 = d <;> simp [h] <;> omega

lemma filter_keys_bumpDay (cal : List (Int × Nat)) (d d' : Int) :
    ((bumpDay cal d').filter fun p => p.1 = d).length
      = (cal.filter fun p => p.1 = d).length := by
  induction cal with
  | nil => rfl
  | cons p cal ih =>
    rw [bumpDay_cons]
    by_cases hpd2 : p.1 = d'
    · rw [if_pos hpd2, List.filter_cons, List.filter_cons]
      by_cases hpd : p.1 = d <;> simp [hpd, ih]
    · rw [if_neg hpd2, List.filter_cons, List.filter_cons]
      by_cases hpd : p.1 = d <;> simp [hpd, ih]

lemma heatmap_fold_sum (evs : List Event) :
    ∀ cal : List (Int × Nat),
      sumCounts (evs.foldl (fun c ev => bumpDay c (eventDate ev)) cal)
        = sumCounts cal
          + (evs.map fun ev =>
              (cal.filter fun p => p.1 = eventDate ev).length).sum := by
  induction evs with
  | nil => intro cal; simp
  | cons ev evs ih =>
    intro cal
    rw [List.foldl_cons, ih (bumpDay cal (eventDate ev)), sumCounts_bumpDay]
    simp only [List.map_cons, List.sum_cons, filter_keys_bumpDay]
    omega

lemma length_filter_eq_of_nodup (l : List Int) (hnd : l.Nodup) (d : Int) :
    (l.filter fun x => x = d).length = if d ∈ l then 1 else 0 := by
  induction l with
  | nil => simp
  | cons a l ih =>
    obtain ⟨ha, hl⟩ := List.nodup_cons.mp hnd
    rw [List.filter_cons]
    by_cases h : a = d
    · subst h
      simp [ha, ih hl, List.mem_cons]
    · have hda : ¬ d = a := fun hc => h hc.symm
      simp [h, hda, ih hl, List.mem_cons]

lemma filter_initCal (s e d : Int) :
    ((initCal s e).filter fun p => p.1 = d).length
      = if s ≤ d ∧ d ≤ e then 1 else 0 := by
  have hfm : ((dateRange s e).map fun x => ((x : Int), (0 : Nat))).filter
        (fun p => p.1 = d)
      = ((dateRange s e).filter fun x => x = d).map fun x => (x, 0) := by
    induction dateRange s e with
    | nil => rfl
    | cons a l ih =>
      rw [List.map_cons, List.filter_cons, List.filter_cons]
      by_cases h : a = d <;> simp [h, ih]
  unfold initCal
  rw [hfm, List.length_map,
    length_filter_eq_of_nodup (dateRange s e) (nodup_dateRange s e) d]
  by_cases hm : s ≤ d ∧ d ≤ e
  · rw [if_pos ((mem_dateRange s e d).mpr hm), if_pos hm]
  · rw [if_neg (fun hc => hm ((mem_dateRange s e d).mp hc)), if_neg hm]

lemma sum_map_zero_int (l : List Int) : (l.map fun _ => (0 : Nat)).sum = 0 := by
  induction l with
  | nil => rfl
  | cons a l ih => simp [ih]

lemma sum_indicator_length (p : Event → Prop) [DecidablePred p]
    (l : List Event) :
    (l.map fun a => if p a then 1 else 0).sum = (l.filter fun a => p a).length := by
  induction l with
  | nil => rfl
  | cons a l ih =>
    rw [List.map_cons, List.sum_cons, List.filter_cons]
    by_cases h : p a <;> simp [h, ih] <;> omega

/-- Claim C10: the heatmap's per-day frame is exactly the inclusive date range,
an event whose date lies outside it increments nothing, so the counts sum
to the number of events with a date inside the range — which can be
strictly less than the total number of events passed in. -/
theorem heatmap_sum_spec (evs : List Event) (s e : Int) :
    (create_calendar_heatmap evs s e).map Prod.fst = dateRange s e ∧
    sumCounts (create_calendar_heatmap evs s e)
      = (evs.filter fun ev => s ≤ eventDate ev ∧ eventDate ev ≤ e).length ∧
    ∃ evs2 : List Event, ∃ s2 e2 : Int,
      sumCounts (create_calendar_heatmap evs2 s2 e2) < evs2.length := by
  refine ⟨?_, ?_, ⟨[ev930, evFar], 0, 1, by decide⟩⟩
  · unfold create_calendar_heatmap
    have hk : ∀ cal : List (Int × Nat),
        (evs.foldl (fun c ev => bumpDay c (eventDate ev)) cal).map Prod.fst
          = cal.map Prod.fst := by
      induction evs with
      | nil => intro cal; rfl
      | cons ev evs ih =>
        intro cal
        rw [List.foldl_cons, ih, keys_bumpDay]
    rw [hk]
    unfold initCal
    rw [List.map_map,
      show (Prod.fst ∘ fun d => ((d : Int), (0 : Nat))) = id from rfl,
      List.map_id]
  · unfold create_calendar_heatmap
    rw [heatmap_fold_sum]
    have h0 : sumCounts (initCal s e) = 0 := by
      unfold sumCounts initCal
      rw [List.map_map]
      exact sum_map_zero_int (dateRange s e)
    have hmap : (evs.map fun ev =>
          ((initCal s e).filter fun p => p.1 = eventDate ev).length)
        = evs.map fun ev => if s ≤ eventDate ev ∧ eventDate ev ≤ e then 1 else 0 := by
      refine List.map_congr_left ?_
      intro ev _
      exact filter_initCal s e (eventDate ev)
    rw [h0, hmap, sum_indicator_length (fun ev => s ≤ eventDate ev ∧ eventDate ev ≤ e)]
    simp

/-- Witness for C10 at a concrete input holding one event inside and one
event outside the range, showing the strict drop. -/
theorem heatmap_sum_spec_witness :
    sumCounts (create_calendar_heatmap [ev930, evFar] 0 1)
      = ([ev930, evFar].filter fun ev =>
          0 ≤ eventDate ev ∧ eventDate ev ≤ 1).length :=
  (heatmap_sum_spec [ev930, evFar] 0 1).2.1

end Cal
